import Mathlib

/-!
# Verification of the bloat session/authentication gateway

A shallow embedding of the session/authentication gateway of the bloat
web client (files `service/auth.go` and `service/service.go`), together
with proofs about its behaviour.

Modelling conventions:
* Go strings are Lean `String`s; the few string primitives the code uses
  (`strings.HasPrefix`, `path.Join`, `url.Values.Encode`, ...) are
  re-implemented below over `String.data` so that they reduce in the kernel.
* Go's `(value, err)` returns become `Except GoErr α`.
* The per-request `context.Context` becomes the `Ctx` structure with the two
  keys the code reads (`session_id`, `csrf_token`); a missing or non-string
  value is `none`.
* Network calls (`mastodon.RegisterApp`, the `http.Post` token exchange) are
  parameters of the functions that perform them: a stub remote instance is a
  Lean function passed in.  Random session-id generation (`util.NewSessionId`)
  is likewise a parameter.
* The repositories of the `model` package are not part of the provided
  sources; they are modelled from the spec (sections 4.2 and 4.3) as
  key-value collections with get and update-by-overwrite add.
-/

set_option autoImplicit false

/-! ## String utilities (kernel-reducible replacements for Go primitives) -/

/-- Go `strings.HasPrefix s pre`. -/
def goStartsWith (s pre : String) : Bool := pre.data.isPrefixOf s.data

/-- `true` iff `needle` occurs as a contiguous substring of `hay`. -/
def listHasSub (hay needle : List Char) : Bool :=
  if needle.isPrefixOf hay then true
  else
    match hay with
    | [] => false
    | _ :: t => listHasSub t needle

/-- `true` iff the string carries a URL scheme separator `://`. -/
def hasScheme (s : String) : Bool := listHasSub s.data "://".data

/-- Split a character list at `/` (Go `strings.Split(s, "/")`). -/
def splitSlash : List Char → List (List Char)
  | [] => [[]]
  | c :: rest =>
    match splitSlash rest with
    | [] => [[]]
    | h :: t => if c = '/' then [] :: h :: t else (c :: h) :: t

/-- Join a list of strings with a separator (Go `strings.Join`). -/
def joinSep (sep : String) : List String → String
  | [] => ""
  | [x] => x
  | x :: xs => x ++ sep ++ joinSep sep xs

/-- ASCII lower-casing of a string (Go `strings.ToLower` on ASCII input). -/
def lowerStr (s : String) : String := String.mk (s.data.map Char.toLower)

/-- UTF-8 bytes of a code point, as `Nat`s (how Go iterates string bytes). -/
def utf8BytesOfChar (c : Char) : List Nat :=
  let n := c.toNat
  if n < 0x80 then [n]
  else if n < 0x800 then [0xC0 + n / 64, 0x80 + n % 64]
  else if n < 0x10000 then [0xE0 + n / 4096, 0x80 + (n / 64) % 64, 0x80 + n % 64]
  else [0xF0 + n / 262144, 0x80 + (n / 4096) % 64, 0x80 + (n / 64) % 64, 0x80 + n % 64]

/-- The UTF-8 bytes of a whole string. -/
def utf8Bytes (s : String) : List Nat := (s.data.map utf8BytesOfChar).flatten

/-- Upper-case hexadecimal digit, as used by Go's `net/url` escaping. -/
def hexDigitUpper (n : Nat) : Char :=
  if n < 10 then Char.ofNat ('0'.toNat + n) else Char.ofNat ('A'.toNat + (n - 10))

/-- Bytes Go's `url.QueryEscape` leaves unescaped: ALPHA / DIGIT / - _ . ~ -/
def isUnreservedByte (n : Nat) : Bool :=
  (48 ≤ n && n ≤ 57) || (65 ≤ n && n ≤ 90) || (97 ≤ n && n ≤ 122) ||
  n = 45 || n = 95 || n = 46 || n = 126

/-- One byte of Go `url.QueryEscape` output (space becomes `+`). -/
def queryEscapeByte (n : Nat) : List Char :=
  if isUnreservedByte n then [Char.ofNat n]
  else if n = 32 then ['+']
  else ['%', hexDigitUpper (n / 16), hexDigitUpper (n % 16)]

/-- Go `url.QueryEscape`. -/
def queryEscape (s : String) : String :=
  String.mk ((utf8Bytes s).map queryEscapeByte).flatten

/-- Bytes Go's path escaping (mode `encodePath`) leaves unescaped. -/
def isPathByte (n : Nat) : Bool :=
  isUnreservedByte n ||
  n = 36 || n = 38 || n = 43 || n = 44 || n = 47 || n = 58 || n = 59 ||
  n = 61 || n = 64

/-- One byte of Go path escaping output. -/
def pathEscapeByte (n : Nat) : List Char :=
  if isPathByte n then [Char.ofNat n]
  else ['%', hexDigitUpper (n / 16), hexDigitUpper (n % 16)]

/-- Go `(*url.URL).EscapedPath` when `RawPath` is unset. -/
def pathEscape (s : String) : String :=
  String.mk ((utf8Bytes s).map pathEscapeByte).flatten

/-- One step of Go `path.Clean` element processing. -/
def cleanStep (rooted : Bool) (acc : List (List Char)) (c : List Char) :
    List (List Char) :=
  if c = "..".data then
    if rooted then acc.dropLast
    else if acc ≠ [] ∧ acc.getLast? ≠ some "..".data then acc.dropLast
    else acc ++ [c]
  else acc ++ [c]

/-- Go `path.Clean`. -/
def cleanPath (p : String) : String :=
  if p = "" then "."
  else
    let rooted := goStartsWith p "/"
    let comps := (splitSlash p.data).filter (fun c => c ≠ [] && c ≠ ".".data)
    let out := comps.foldl (cleanStep rooted) []
    let joined := joinSep "/" (out.map String.mk)
    if rooted then "/" ++ joined
    else if joined = "" then "." else joined

/-- Go `path.Join` restricted to two elements, as called by the service. -/
def pathJoin (a b : String) : String :=
  if a = "" && b = "" then ""
  else if a = "" then cleanPath b
  else cleanPath (a ++ "/" ++ b)

/-- Result of Go `net/url`'s `getscheme`. -/
inductive SchemeSplit where
  /-- A colon appears at position 0: `url.Parse` fails. -/
  | bad
  /-- No scheme: the whole input is the remainder. -/
  | without (rest : List Char)
  /-- A scheme followed by the remainder. -/
  | with_ (scheme rest : List Char)
deriving DecidableEq, Repr

/-- Go `net/url` `getscheme`, scanning for a `:` after scheme characters. -/
def getSchemeAux (first : Bool) (seen : List Char) : List Char → SchemeSplit
  | [] => .without (seen.reverse ++ [])
  | c :: rest =>
    if c.isAlpha then getSchemeAux false (c :: seen) rest
    else if (c.isDigit || c = '+' || c = '-' || c = '.') && !first then
      getSchemeAux false (c :: seen) rest
    else if c = ':' then
      if first then .bad else .with_ seen.reverse rest
    else .without (seen.reverse ++ (c :: rest))

/-! ## Error values

Mirrors the `errors.New` values of `service/auth.go` and
`service/service.go`, plus the repository errors of the `model` package
(spec sections 4.2, 4.3 and 7) and opaque errors produced by stubbed
collaborators (remote instance, wrapped content service). -/

inductive GoErr where
  /-- `service.ErrInvalidSession` (`service/auth.go`). -/
  | invalidSession
  /-- `service.ErrInvalidCSRFToken` (`service/auth.go`). -/
  | invalidCSRFToken
  /-- `service.ErrInvalidArgument` (`service/service.go`). -/
  | invalidArgument
  /-- `model.ErrSessionNotFound`: Session Store miss (spec section 4.3). -/
  | sessionNotFound
  /-- `model.ErrAppNotFound`: Instance Registry miss (spec section 4.2). -/
  | appNotFound
  /-- `url.Parse` failure inside `GetAuthUrl`. -/
  | urlParseError (input : String)
  /-- An error produced by a stubbed collaborator (remote instance,
  storage, or the wrapped content service). -/
  | stubErr (msg : String)
deriving DecidableEq, Repr

instance {ε α : Type} [DecidableEq ε] [DecidableEq α] : DecidableEq (Except ε α) :=
  fun x y =>
    match x, y with
    | .error a, .error b =>
      if h : a = b then .isTrue (congrArg Except.error h)
      else .isFalse (fun hc => h (Except.error.inj hc))
    | .ok a, .ok b =>
      if h : a = b then .isTrue (congrArg Except.ok h)
      else .isFalse (fun hc => h (Except.ok.inj hc))
    | .error _, .ok _ => .isFalse (fun hc => Except.noConfusion hc)
    | .ok _, .error _ => .isFalse (fun hc => Except.noConfusion hc)

/-! ## Data model (spec section 3, Go `model` package) -/

/-- `model.Session`.  `service/auth.go` names the instance field
`InstanceDomain` and `service/service.go` names it `InstanceURL`; both
denote the session's remote instance base URL (spec section 3). -/
structure Session where
  id : String
  instanceURL : String
  accessToken : String
  csrfToken : String
deriving DecidableEq, Repr

/-- `model.App`: OAuth credentials registered with one instance. -/
structure App where
  instanceURL : String
  clientID : String
  clientSecret : String
deriving DecidableEq, Repr

/-- `mastodon.Config`: what `mastodon.NewClient` is configured with. -/
structure MastoConfig where
  server : String
  clientID : String
  clientSecret : String
  accessToken : String
deriving DecidableEq, Repr

/-- `model.Client`: a mastodon client bound to a session
(the transient `AuthenticatedClient` of spec section 3). -/
structure Client where
  config : MastoConfig
  session : Session
deriving DecidableEq, Repr

/-- The request context: the two keyed values the gateway reads.
`none` models an absent key (or a value that is not a string). -/
structure Ctx where
  sessionID : Option String
  csrfToken : Option String
deriving DecidableEq, Repr

/-- `model.Settings` (`model/settings.go`). -/
structure Settings where
  defaultVisibility : String
  copyScope : Bool
  threadInNewTab : Bool
  maskNSFW : Bool
deriving DecidableEq, Repr

/-- A multipart file attachment, opaque to the gateway. -/
structure FileHeader where
  filename : String
deriving DecidableEq, Repr

/-- The `service` struct's configuration fields. -/
structure SvcConf where
  clientName : String
  clientScope : String
  clientWebsite : String
deriving DecidableEq, Repr

/-- The argument record of `mastodon.RegisterApp` (`mastodon.AppConfig`). -/
structure RegisterReq where
  server : String
  clientName : String
  scopes : String
  website : String
  redirectURIs : String
deriving DecidableEq, Repr

/-- `mastodon.Application`: what a successful registration returns. -/
structure MastoApp where
  clientID : String
  clientSecret : String
deriving DecidableEq, Repr

/-- The token-exchange POST performed by `service.GetUserToken`:
the URL and the JSON payload fields. -/
structure TokenReq where
  url : String
  clientID : String
  clientSecret : String
  grantType : String
  code : String
  redirectURI : String
deriving DecidableEq, Repr

/-! ## Persistent stores

Modelled from the spec: the `model` package repositories are not among the
provided sources.  Spec section 4.3 — the Session Store is a mapping from
session id to Session, `add` is used "both to create and to
update-by-overwrite, since `Session.id` is the key", `get` fails with
`SessionNotFound`.  Spec section 4.2 — the Instance Registry maps an
instance URL to its RegisteredApp, `get` fails with `AppNotFound`. -/

/-- Modelled from the spec: `model.SessionRepository.Get` (section 4.3). -/
def sessionsGet (l : List Session) (id : String) : Except GoErr Session :=
  match l.find? (fun s => s.id == id) with
  | some s => .ok s
  | none => .error .sessionNotFound

/-- Modelled from the spec: `model.SessionRepository.Add`, an
update-by-overwrite keyed on `Session.id` (section 4.3). -/
def sessionsAdd (l : List Session) (s : Session) : List Session :=
  s :: l.filter (fun t => t.id != s.id)

/-- Modelled from the spec: `model.AppRepository.Get` (section 4.2). -/
def appsGet (l : List App) (url : String) : Except GoErr App :=
  match l.find? (fun a => a.instanceURL == url) with
  | some a => .ok a
  | none => .error .appNotFound

/-- Modelled from the spec: `model.AppRepository.Add`, keyed on
`App.instanceURL` (section 4.2). -/
def appsAdd (l : List App) (a : App) : List App :=
  a :: l.filter (fun b => b.instanceURL != a.instanceURL)

/-- The shared persistent state: both stores. -/
structure St where
  sessions : List Session
  apps : List App
deriving DecidableEq, Repr

/-! ## URL construction (Go `net/url` as used by `service.GetAuthUrl`)

`GetAuthUrl` calls `url.Parse(path.Join(instance, "/oauth/authorize"))`,
overwrites `RawQuery` with the encoded query, and renders with
`(*url.URL).String()`.  Every call site passes a `path.Clean` output, which
never contains `//`, so authority (host) parsing never triggers; the model
therefore carries no host component.  Percent-unescaping of the parsed path
is not modelled (no caller passes `%`-escapes). -/

/-- `true` iff a `:` occurs before any `/` (Go's first-path-segment check,
also used by `(*url.URL).String` for the `./` prefix). -/
def firstSegHasColon : List Char → Bool
  | [] => false
  | c :: rest =>
    if c = '/' then false
    else if c = ':' then true
    else firstSegHasColon rest

/-- Split at the first `?`, dropping it (Go `split(rest, "?", true)`);
only the part before the `?` is kept since the code overwrites `RawQuery`. -/
def dropQuery : List Char → List Char
  | [] => []
  | c :: rest => if c = '?' then [] else c :: dropQuery rest

/-- The components of a parsed URL that matter here. -/
structure ParsedURL where
  scheme : String
  opq : String
  path : String
deriving DecidableEq, Repr

/-- Go `url.Parse`, restricted as described above:
scheme extraction, query stripping, the opaque (rootless-path) rule, and
the colon-in-first-segment error for scheme-less inputs. -/
def parseURL (s : String) : Except GoErr ParsedURL :=
  match getSchemeAux true [] s.data with
  | .bad => .error (.urlParseError s)
  | .without rest₀ =>
    let rest := dropQuery rest₀
    match rest with
    | '/' :: _ => .ok { scheme := "", opq := "", path := String.mk rest }
    | _ =>
      if firstSegHasColon rest then .error (.urlParseError s)
      else .ok { scheme := "", opq := "", path := String.mk rest }
  | .with_ scheme rest₀ =>
    let rest := dropQuery rest₀
    match rest with
    | '/' :: _ => .ok { scheme := lowerStr (String.mk scheme), opq := "",
                        path := String.mk rest }
    | _ => .ok { scheme := lowerStr (String.mk scheme), opq := String.mk rest,
                 path := "" }

/-- Go `(*url.URL).String()` for a URL with empty `Host` and no `User`,
with `RawQuery` already set. -/
def urlString (u : ParsedURL) (rawQuery : String) : String :=
  let head := if u.scheme ≠ "" then u.scheme ++ ":" else ""
  let body :=
    if u.opq ≠ "" then u.opq
    else
      let p := pathEscape u.path
      if u.scheme ≠ "" then (if p ≠ "" then "//" ++ p else p)
      else if firstSegHasColon p.data then "./" ++ p
      else p
  head ++ body ++ (if rawQuery ≠ "" then "?" ++ rawQuery else "")

/-- `url.Values.Encode()` of the four query parameters set by
`service.GetAuthUrl` (lines 114-119): keys in sorted order, values
query-escaped.  Note the code hardcodes the scope `read write follow`. -/
def queryEncode (clientID website : String) : String :=
  joinSep "&" [
    "client_id=" ++ queryEscape clientID,
    "redirect_uri=" ++ queryEscape (website ++ "/oauth_callback"),
    "response_type=" ++ queryEscape "code",
    "scope=" ++ queryEscape "read write follow"]

/-- Lines 109-121 of `service/service.go`: build the remote instance's
authorization URL for the given instance and client id. -/
def authorizeURL (clientWebsite inst clientID : String) : Except GoErr String :=
  match parseURL (pathJoin inst "/oauth/authorize") with
  | .error e => .error e
  | .ok u => .ok (urlString u (queryEncode clientID clientWebsite))

/-! ## The base service (`service/service.go`) -/

/-- The normalization at the top of `service.GetAuthUrl` (lines 66-68):
prefix `https://` unless the instance already starts with it. -/
def normalizeInstance (inst : String) : String :=
  if goStartsWith inst "https://" then inst else "https://" ++ inst

namespace service

/-- `service.GetAuthUrl` (`service/service.go` lines 64-124).
The Go parameter `instance` is named `inst` (`instance` is a Lean keyword).
`freshID` stands for the random `util.NewSessionId()`; `register` is the
remote instance's application-registration endpoint
(`mastodon.RegisterApp`).  Store writes are modelled as infallible (the
code propagates `Add` errors, which the modelled stores never produce).
Returns the `(redirectUrl, sessionID)` result and the updated state. -/
def GetAuthUrl (conf : SvcConf) (st : St) (freshID : String)
    (register : RegisterReq → Except GoErr MastoApp) (inst : String) :
    Except GoErr (String × String) × St :=
  let inst := normalizeInstance inst
  let sessionID := freshID
  let newSession : Session :=
    { id := sessionID, instanceURL := inst, accessToken := "", csrfToken := "" }
  let st₁ : St := { st with sessions := sessionsAdd st.sessions newSession }
  match appsGet st₁.apps inst with
  | .ok app =>
    match authorizeURL conf.clientWebsite inst app.clientID with
    | .error e => (.error e, st₁)
    | .ok redirectUrl => (.ok (redirectUrl, sessionID), st₁)
  | .error e =>
    if e ≠ .appNotFound then (.error e, st₁)
    else
      match register { server := inst, clientName := conf.clientName,
                       scopes := conf.clientScope, website := conf.clientWebsite,
                       redirectURIs := conf.clientWebsite ++ "/oauth_callback" } with
      | .error e => (.error e, st₁)
      | .ok mastoApp =>
        let app : App := { instanceURL := inst, clientID := mastoApp.clientID,
                           clientSecret := mastoApp.clientSecret }
        let st₂ : St := { st₁ with apps := appsAdd st₁.apps app }
        match authorizeURL conf.clientWebsite inst app.clientID with
        | .error e => (.error e, st₂)
        | .ok redirectUrl => (.ok (redirectUrl, sessionID), st₂)

/-- `service.GetUserToken` (`service/service.go` lines 126-178).
`post` is the remote token endpoint (`http.Post` plus the JSON decode of
its response); it returns the decoded `access_token`.  The `c` parameter
is unused by the code (its uses are commented out in the source).
No store write happens here: the persistence lines are commented out. -/
def GetUserToken (conf : SvcConf) (st : St)
    (post : TokenReq → Except GoErr String) (sessionID : String)
    (c : Option Client) (code : String) : Except GoErr String :=
  if code.length < 1 then .error .invalidArgument
  else
    match sessionsGet st.sessions sessionID with
    | .error e => .error e
    | .ok session =>
      match appsGet st.apps session.instanceURL with
      | .error e => .error e
      | .ok app =>
        match post { url := app.instanceURL ++ "/oauth/token",
                     clientID := app.clientID, clientSecret := app.clientSecret,
                     grantType := "authorization_code", code := code,
                     redirectURI := conf.clientWebsite ++ "/oauth_callback" } with
        | .error e => .error e
        | .ok accessToken => .ok accessToken

end service

/-! ## The auth gateway (`service/auth.go`) -/

namespace authService

/-- `authService.getClient` (`service/auth.go` lines 28-49): resolve the
request context into an authenticated client.  A missing or empty
`session_id` value, or a Session Store miss, yields `ErrInvalidSession`;
an Instance Registry error is returned unchanged (`if err != nil
{ return }` with the named returns `c = nil, err`). -/
def getClient (st : St) (ctx : Ctx) : Except GoErr Client :=
  match ctx.sessionID with
  | none => .error .invalidSession
  | some sessionID =>
    if sessionID.length < 1 then .error .invalidSession
    else
      match sessionsGet st.sessions sessionID with
      | .error _ => .error .invalidSession
      | .ok session =>
        match appsGet st.apps session.instanceURL with
        | .error e => .error e
        | .ok client =>
          .ok { config := { server := client.instanceURL,
                            clientID := client.clientID,
                            clientSecret := client.clientSecret,
                            accessToken := session.accessToken },
                session := session }

end authService

/-- `checkCSRF` (`service/auth.go` lines 51-57): the token carried in the
request context must be present and equal to the session's stored token. -/
def checkCSRF (ctx : Ctx) (c : Client) : Except GoErr Unit :=
  match ctx.csrfToken with
  | none => .error .invalidCSRFToken
  | some csrfToken =>
    if csrfToken ≠ c.session.csrfToken then .error .invalidCSRFToken
    else .ok ()

/-- The wrapped Content Service (the embedded `Service` of `authService`):
one field per mutating operation the gateway guards.  The gateway treats
it as a black box, so each field is an arbitrary function. -/
structure ContentService where
  saveSettings : Client → Settings → Except GoErr Unit
  like : Client → String → Except GoErr Int
  unLike : Client → String → Except GoErr Int
  retweet : Client → String → Except GoErr Int
  unRetweet : Client → String → Except GoErr Int
  postTweet : Client → String → String → String → String → Bool →
    List FileHeader → Except GoErr String
  follow : Client → String → Except GoErr Unit
  unFollow : Client → String → Except GoErr Unit

namespace authService

/-- `authService.GetUserToken` (`service/auth.go` lines 64-83): the
caller-supplied `sessionID` and `c` are immediately shadowed by the
client resolved from the context; on success the token is written into
the session record and the record re-added (overwrite). -/
def GetUserToken (conf : SvcConf) (st : St)
    (post : TokenReq → Except GoErr String) (ctx : Ctx) (sessionID : String)
    (c : Option Client) (code : String) : Except GoErr String × St :=
  match getClient st ctx with
  | .error e => (.error e, st)
  | .ok c =>
    match service.GetUserToken conf st post c.session.id (some c) code with
    | .error e => (.error e, st)
    | .ok token =>
      let session := { c.session with accessToken := token }
      (.ok token, { st with sessions := sessionsAdd st.sessions session })

/-- `authService.SaveSettings` (`service/auth.go` lines 191-201). -/
def SaveSettings (st : St) (ctx : Ctx) (inner : ContentService)
    (settings : Settings) : Except GoErr Unit :=
  match getClient st ctx with
  | .error e => .error e
  | .ok c =>
    match checkCSRF ctx c with
    | .error e => .error e
    | .ok _ => inner.saveSettings c settings

/-- `authService.Like` (`service/auth.go` lines 203-213). -/
def Like (st : St) (ctx : Ctx) (inner : ContentService) (id : String) :
    Except GoErr Int :=
  match getClient st ctx with
  | .error e => .error e
  | .ok c =>
    match checkCSRF ctx c with
    | .error e => .error e
    | .ok _ => inner.like c id

/-- `authService.UnLike` (`service/auth.go` lines 215-225). -/
def UnLike (st : St) (ctx : Ctx) (inner : ContentService) (id : String) :
    Except GoErr Int :=
  match getClient st ctx with
  | .error e => .error e
  | .ok c =>
    match checkCSRF ctx c with
    | .error e => .error e
    | .ok _ => inner.unLike c id

/-- `authService.Retweet` (`service/auth.go` lines 227-237). -/
def Retweet (st : St) (ctx : Ctx) (inner : ContentService) (id : String) :
    Except GoErr Int :=
  match getClient st ctx with
  | .error e => .error e
  | .ok c =>
    match checkCSRF ctx c with
    | .error e => .error e
    | .ok _ => inner.retweet c id

/-- `authService.UnRetweet` (`service/auth.go` lines 239-249). -/
def UnRetweet (st : St) (ctx : Ctx) (inner : ContentService) (id : String) :
    Except GoErr Int :=
  match getClient st ctx with
  | .error e => .error e
  | .ok c =>
    match checkCSRF ctx c with
    | .error e => .error e
    | .ok _ => inner.unRetweet c id

/-- `authService.PostTweet` (`service/auth.go` lines 251-261). -/
def PostTweet (st : St) (ctx : Ctx) (inner : ContentService) (content : String)
    (replyToID : String) (format : String) (visibility : String) (isNSFW : Bool)
    (files : List FileHeader) : Except GoErr String :=
  match getClient st ctx with
  | .error e => .error e
  | .ok c =>
    match checkCSRF ctx c with
    | .error e => .error e
    | .ok _ => inner.postTweet c content replyToID format visibility isNSFW files

/-- `authService.Follow` (`service/auth.go` lines 263-273). -/
def Follow (st : St) (ctx : Ctx) (inner : ContentService) (id : String) :
    Except GoErr Unit :=
  match getClient st ctx with
  | .error e => .error e
  | .ok c =>
    match checkCSRF ctx c with
    | .error e => .error e
    | .ok _ => inner.follow c id

/-- `authService.UnFollow` (`service/auth.go` lines 275-285). -/
def UnFollow (st : St) (ctx : Ctx) (inner : ContentService) (id : String) :
    Except GoErr Unit :=
  match getClient st ctx with
  | .error e => .error e
  | .ok c =>
    match checkCSRF ctx c with
    | .error e => .error e
    | .ok _ => inner.unFollow c id

end authService

/-! ## Concrete sample values shared by the witnesses below -/

/-- A sample service configuration. -/
def conf0 : SvcConf := ⟨"bloat", "read write follow", "https://bloat.example"⟩

/-- A sample content service whose operations all succeed. -/
def inner0 : ContentService :=
  ⟨fun _ _ => .ok (), fun _ _ => .ok 0, fun _ _ => .ok 0, fun _ _ => .ok 0,
   fun _ _ => .ok 0, fun _ _ _ _ _ _ _ => .ok "", fun _ _ => .ok (),
   fun _ _ => .ok ()⟩

/-- A concrete state with one resolvable session for the witnesses. -/
def st9 : St := ⟨[⟨"s9", "https://w", "", ""⟩], [⟨"https://w", "cid9", "sec9"⟩]⟩

/-- The client `getClient` resolves from `st9`. -/
def client9 : Client :=
  ⟨⟨"https://w", "cid9", "sec9", ""⟩, ⟨"s9", "https://w", "", ""⟩⟩

/-! ## Helper lemmas about the modelled stores and strings -/

theorem strLen_lt_one_iff (s : String) : s.length < 1 ↔ s = "" := by
  constructor
  · intro h
    cases s with
    | mk data =>
      have hd : data = [] := List.length_eq_zero.mp (Nat.lt_one_iff.mp h)
      simp [hd]
  · intro h
    subst h
    decide

theorem sessionsGet_error {l : List Session} {id : String} {e : GoErr}
    (h : sessionsGet l id = .error e) : e = .sessionNotFound := by
  unfold sessionsGet at h
  split at h
  · exact absurd h (by simp)
  · simpa using h.symm

theorem appsGet_error {l : List App} {url : String} {e : GoErr}
    (h : appsGet l url = .error e) : e = .appNotFound := by
  unfold appsGet at h
  split at h
  · exact absurd h (by simp)
  · simpa using h.symm

theorem sessionsGet_ok_id {l : List Session} {id : String} {s : Session}
    (h : sessionsGet l id = .ok s) : s.id = id := by
  unfold sessionsGet at h
  split at h
  · rename_i s' hf
    have hp := List.find?_some hf
    have hs : s' = s := by simpa using h
    subst hs
    exact eq_of_beq hp
  · exact absurd h (by simp)

theorem appsGet_ok_url {l : List App} {url : String} {a : App}
    (h : appsGet l url = .ok a) : a.instanceURL = url := by
  unfold appsGet at h
  split at h
  · rename_i a' hf
    have hp := List.find?_some hf
    have ha : a' = a := by simpa using h
    subst ha
    exact eq_of_beq hp
  · exact absurd h (by simp)

theorem sessions_find?_filter_ne (l : List Session) (k j : String) (h : j ≠ k) :
    (l.filter (fun t => t.id != k)).find? (fun t => t.id == j) =
      l.find? (fun t => t.id == j) := by
  induction l with
  | nil => rfl
  | cons a l ih =>
    by_cases ha : a.id = k
    · have h1 : (a.id != k) = false := by simp [ha]
      have h2 : (a.id == j) = false := by
        simp only [beq_eq_false_iff_ne, ha]
        exact fun hc => h hc.symm
      simp only [List.filter_cons, h1, Bool.false_eq_true, if_false, List.find?_cons, h2, ih]
    · have h1 : (a.id != k) = true := by simp [ha]
      simp only [List.filter_cons, h1, if_true, List.find?_cons, ih]

theorem sessionsGet_add_self (l : List Session) (s : Session) :
    sessionsGet (sessionsAdd l s) s.id = .ok s := by
  simp [sessionsGet, sessionsAdd, List.find?]

theorem sessionsGet_add_other (l : List Session) (s : Session) (j : String)
    (h : j ≠ s.id) :
    sessionsGet (sessionsAdd l s) j = sessionsGet l j := by
  unfold sessionsGet sessionsAdd
  have hs : (s.id == j) = false := by
    simp
    exact fun hc => h hc.symm
  simp [List.find?, hs, sessions_find?_filter_ne l s.id j h]

theorem apps_find?_filter_ne (l : List App) (k j : String) (h : j ≠ k) :
    (l.filter (fun t => t.instanceURL != k)).find? (fun t => t.instanceURL == j) =
      l.find? (fun t => t.instanceURL == j) := by
  induction l with
  | nil => rfl
  | cons a l ih =>
    by_cases ha : a.instanceURL = k
    · have h1 : (a.instanceURL != k) = false := by simp [ha]
      have h2 : (a.instanceURL == j) = false := by
        simp only [beq_eq_false_iff_ne, ha]
        exact fun hc => h hc.symm
      simp only [List.filter_cons, h1, Bool.false_eq_true, if_false, List.find?_cons, h2, ih]
    · have h1 : (a.instanceURL != k) = true := by simp [ha]
      simp only [List.filter_cons, h1, if_true, List.find?_cons, ih]

theorem appsGet_add_self (l : List App) (a : App) :
    appsGet (appsAdd l a) a.instanceURL = .ok a := by
  simp [appsGet, appsAdd, List.find?]

/-- Successful client resolution pins down where the session and the
credentials came from, and the shape of the resulting client. -/
theorem getClient_ok_spec {st : St} {ctx : Ctx} {c : Client}
    (h : authService.getClient st ctx = .ok c) :
    ∃ sid app, ctx.sessionID = some sid ∧ sid ≠ "" ∧
      sessionsGet st.sessions sid = .ok c.session ∧ c.session.id = sid ∧
      appsGet st.apps c.session.instanceURL = .ok app ∧
      c.config = ⟨app.instanceURL, app.clientID, app.clientSecret,
                  c.session.accessToken⟩ := by
  unfold authService.getClient at h
  split at h
  · exact absurd h (by simp)
  · rename_i sid hsid
    split at h
    · exact absurd h (by simp)
    · rename_i hlen
      split at h
      · exact absurd h (by simp)
      · rename_i session hget
        split at h
        · exact absurd h (by simp)
        · rename_i app happ
          have hc : c = ⟨⟨app.instanceURL, app.clientID, app.clientSecret,
              session.accessToken⟩, session⟩ := by
            have := h.symm
            simpa using this
          subst hc
          refine ⟨sid, app, hsid, ?_, hget, sessionsGet_ok_id hget, happ, rfl⟩
          intro hemp
          exact hlen ((strLen_lt_one_iff sid).mpr hemp)

/-! ## C1: error classification of `getClient` -/

/-- C1 (counterexample): the claim says a session whose instance has no
RegisteredApp makes `getClient` fail with `InvalidSession`.  At this
concrete input — the context resolves to session `s1`, but the Instance
Registry is empty — `getClient` returns the registry's `AppNotFound`
error instead, which is not `InvalidSession`. -/
theorem getClient_missing_app_counterexample :
    authService.getClient ⟨[⟨"s1", "https://x", "", ""⟩], []⟩ ⟨some "s1", none⟩
        = .error .appNotFound ∧
      (Except.error GoErr.appNotFound : Except GoErr Client)
        ≠ .error .invalidSession := by
  decide

/-- C1 (amended): `getClient` fails with `InvalidSession` exactly when
the context carries no (or an empty) session identifier or the identifier
misses the Session Store; when the session resolves but its instance has
no RegisteredApp, the registry's own `AppNotFound` error is returned
unchanged — never `InvalidSession` and never a half-formed client; a
client is returned only when every lookup succeeded, fully formed. -/
theorem getClient_error_classification (st : St) (ctx : Ctx) :
    (authService.getClient st ctx = .error .invalidSession ↔
      ctx.sessionID = none ∨ ctx.sessionID = some "" ∨
      ∃ sid, ctx.sessionID = some sid ∧
        sessionsGet st.sessions sid = .error .sessionNotFound)
    ∧ (∀ sid session, ctx.sessionID = some sid → sid ≠ "" →
        sessionsGet st.sessions sid = .ok session →
        appsGet st.apps session.instanceURL = .error .appNotFound →
        authService.getClient st ctx = .error .appNotFound)
    ∧ (∀ c, authService.getClient st ctx = .ok c →
        ∃ sid app, ctx.sessionID = some sid ∧ sid ≠ "" ∧
          sessionsGet st.sessions sid = .ok c.session ∧
          appsGet st.apps c.session.instanceURL = .ok app ∧
          c.config = ⟨app.instanceURL, app.clientID, app.clientSecret,
                      c.session.accessToken⟩) := by
  refine ⟨?_, ?_, ?_⟩
  · cases hc : ctx.sessionID with
    | none => simp [authService.getClient, hc]
    | some sid =>
      by_cases hemp : sid = ""
      · subst hemp
        simp [authService.getClient, hc]
      · have hlen : ¬ sid.length < 1 := fun hl => hemp ((strLen_lt_one_iff sid).mp hl)
        cases hs : sessionsGet st.sessions sid with
        | error e =>
          have he := sessionsGet_error hs
          subst he
          simp [authService.getClient, hc, hlen, hs, hemp]
        | ok session =>
          cases ha : appsGet st.apps session.instanceURL with
          | error e =>
            have he := appsGet_error ha
            subst he
            simp [authService.getClient, hc, hlen, hs, ha, hemp]
          | ok app =>
            simp [authService.getClient, hc, hlen, hs, ha, hemp]
  · intro sid session hc hemp hget happ
    have hlen : ¬ sid.length < 1 := fun hl => hemp ((strLen_lt_one_iff sid).mp hl)
    simp [authService.getClient, hc, hlen, hget, happ]
  · intro c h
    obtain ⟨sid, app, hsid, hemp, hget, _, happ, hconf⟩ := getClient_ok_spec h
    exact ⟨sid, app, hsid, hemp, hget, happ, hconf⟩

/-- C1 (witness): at a concrete input where the session resolves but the
registry misses, the amended classification yields `AppNotFound`. -/
theorem getClient_error_classification_witness :
    authService.getClient ⟨[⟨"s2", "https://y", "", ""⟩], []⟩ ⟨some "s2", some "t"⟩
      = .error .appNotFound :=
  (getClient_error_classification ⟨[⟨"s2", "https://y", "", ""⟩], []⟩
      ⟨some "s2", some "t"⟩).2.1 "s2" ⟨"s2", "https://y", "", ""⟩
    (by decide) (by decide) (by decide) (by decide)

/-! ## C2: exactness of the CSRF check -/

/-- C2: `checkCSRF` succeeds exactly when the context carries a CSRF
token that is byte-for-byte equal to the session's stored `csrfToken`
(string equality, so case and emptiness differences are mismatches);
every other outcome is the `InvalidCSRFToken` error. -/
theorem checkCSRF_exact_match (ctx : Ctx) (c : Client) :
    (checkCSRF ctx c = .ok () ↔ ctx.csrfToken = some c.session.csrfToken)
    ∧ (checkCSRF ctx c = .ok () ∨ checkCSRF ctx c = .error .invalidCSRFToken) := by
  cases ht : ctx.csrfToken with
  | none => simp [checkCSRF, ht]
  | some t =>
    by_cases he : t = c.session.csrfToken
    · subst he
      simp [checkCSRF, ht]
    · simp [checkCSRF, ht, he]

/-- C2 (witness): the check succeeds on a matching token at a concrete
input. -/
theorem checkCSRF_exact_match_witness :
    checkCSRF ⟨some "w2", some "T2"⟩
      ⟨⟨"https://w2i", "ci", "cs", "at"⟩, ⟨"w2", "https://w2i", "at", "T2"⟩⟩
      = .ok () :=
  (checkCSRF_exact_match ⟨some "w2", some "T2"⟩
    ⟨⟨"https://w2i", "ci", "cs", "at"⟩, ⟨"w2", "https://w2i", "at", "T2"⟩⟩).1.mpr rfl

/-! ## C3: every mutating operation is guarded by resolution and CSRF -/

/-- C3: for each of the eight mutating gateway operations, the wrapped
Content Service is reached only when both `getClient` and `checkCSRF`
succeed; if either fails, its error is returned unchanged and the result
does not depend on the wrapped service at all (the three groups below
quantify over an arbitrary `inner`), so the inner operation is never
invoked. -/
theorem mutating_ops_guarded (st : St) (ctx : Ctx) :
    (∀ e, authService.getClient st ctx = .error e →
      ∀ (inner : ContentService) (settings : Settings) (id : String)
        (content replyToID format visibility : String) (isNSFW : Bool)
        (files : List FileHeader),
        authService.SaveSettings st ctx inner settings = .error e ∧
        authService.Like st ctx inner id = .error e ∧
        authService.UnLike st ctx inner id = .error e ∧
        authService.Retweet st ctx inner id = .error e ∧
        authService.UnRetweet st ctx inner id = .error e ∧
        authService.PostTweet st ctx inner content replyToID format visibility
          isNSFW files = .error e ∧
        authService.Follow st ctx inner id = .error e ∧
        authService.UnFollow st ctx inner id = .error e)
    ∧ (∀ c e, authService.getClient st ctx = .ok c →
        checkCSRF ctx c = .error e →
        ∀ (inner : ContentService) (settings : Settings) (id : String)
          (content replyToID format visibility : String) (isNSFW : Bool)
          (files : List FileHeader),
          authService.SaveSettings st ctx inner settings = .error e ∧
          authService.Like st ctx inner id = .error e ∧
          authService.UnLike st ctx inner id = .error e ∧
          authService.Retweet st ctx inner id = .error e ∧
          authService.UnRetweet st ctx inner id = .error e ∧
          authService.PostTweet st ctx inner content replyToID format visibility
            isNSFW files = .error e ∧
          authService.Follow st ctx inner id = .error e ∧
          authService.UnFollow st ctx inner id = .error e)
    ∧ (∀ c, authService.getClient st ctx = .ok c →
        checkCSRF ctx c = .ok () →
        ∀ (inner : ContentService) (settings : Settings) (id : String)
          (content replyToID format visibility : String) (isNSFW : Bool)
          (files : List FileHeader),
          authService.SaveSettings st ctx inner settings =
            inner.saveSettings c settings ∧
          authService.Like st ctx inner id = inner.like c id ∧
          authService.UnLike st ctx inner id = inner.unLike c id ∧
          authService.Retweet st ctx inner id = inner.retweet c id ∧
          authService.UnRetweet st ctx inner id = inner.unRetweet c id ∧
          authService.PostTweet st ctx inner content replyToID format visibility
            isNSFW files =
            inner.postTweet c content replyToID format visibility isNSFW files ∧
          authService.Follow st ctx inner id = inner.follow c id ∧
          authService.UnFollow st ctx inner id = inner.unFollow c id) := by
  refine ⟨?_, ?_, ?_⟩
  · intro e h inner settings id content replyToID format visibility isNSFW files
    refine ⟨?_, ?_, ?_, ?_, ?_, ?_, ?_, ?_⟩ <;>
      simp [authService.SaveSettings, authService.Like, authService.UnLike,
            authService.Retweet, authService.UnRetweet, authService.PostTweet,
            authService.Follow, authService.UnFollow, h]
  · intro c e hc hcsrf inner settings id content replyToID format visibility isNSFW files
    refine ⟨?_, ?_, ?_, ?_, ?_, ?_, ?_, ?_⟩ <;>
      simp [authService.SaveSettings, authService.Like, authService.UnLike,
            authService.Retweet, authService.UnRetweet, authService.PostTweet,
            authService.Follow, authService.UnFollow, hc, hcsrf]
  · intro c hc hcsrf inner settings id content replyToID format visibility isNSFW files
    refine ⟨?_, ?_, ?_, ?_, ?_, ?_, ?_, ?_⟩ <;>
      simp [authService.SaveSettings, authService.Like, authService.UnLike,
            authService.Retweet, authService.UnRetweet, authService.PostTweet,
            authService.Follow, authService.UnFollow, hc, hcsrf]

/-- C3 (witness): with no session in the context, `Like` fails with
`InvalidSession` for a concrete inner service that would have succeeded. -/
theorem mutating_ops_guarded_witness :
    authService.Like ⟨[], []⟩ ⟨none, none⟩ inner0 "42" = .error .invalidSession :=
  ((mutating_ops_guarded ⟨[], []⟩ ⟨none, none⟩).1 .invalidSession rfl inner0
    ⟨"", false, false, false⟩ "42" "" "" "" "" false []).2.1

/-! ## C9: the gateway ignores the caller-supplied sessionID and client -/

/-- C9: the gateway's `GetUserToken` ignores its explicit `sessionID` and
`c` parameters — changing them never changes the result — and once the
context resolves to a client `c`, the inner service is invoked with the
resolved session's own id (`c.session.id`), after which the token is
persisted into that session. -/
theorem authGetUserToken_ignores_params (conf : SvcConf) (st : St)
    (post : TokenReq → Except GoErr String) (ctx : Ctx) (code : String) :
    (∀ sid₁ c₁ sid₂ c₂,
      authService.GetUserToken conf st post ctx sid₁ c₁ code =
        authService.GetUserToken conf st post ctx sid₂ c₂ code)
    ∧ (∀ c, authService.getClient st ctx = .ok c → ∀ sid₀ c₀,
        authService.GetUserToken conf st post ctx sid₀ c₀ code =
          match service.GetUserToken conf st post c.session.id (some c) code with
          | .error e => (.error e, st)
          | .ok token =>
            (.ok token,
              { st with
                sessions := sessionsAdd st.sessions ({ c.session with accessToken := token }) })) := by
  constructor
  · intro sid₁ c₁ sid₂ c₂
    rfl
  · intro c hc sid₀ c₀
    simp [authService.GetUserToken, hc]

/-- C9 (witness): at a concrete resolvable state, the result with a bogus
caller-supplied session id and nil client is the one computed from the
resolved session `s9`. -/
theorem authGetUserToken_ignores_params_witness :
    authService.GetUserToken conf0 st9 (fun _ => .ok "TOK9") ⟨some "s9", none⟩
        "bogus" none "C9" =
      match service.GetUserToken conf0 st9 (fun _ => .ok "TOK9")
          client9.session.id (some client9) "C9" with
      | .error e => (.error e, st9)
      | .ok token =>
        (.ok token,
          { st9 with
            sessions := sessionsAdd st9.sessions ({ client9.session with accessToken := token }) }) :=
  (authGetUserToken_ignores_params conf0 st9 (fun _ => .ok "TOK9")
    ⟨some "s9", none⟩ "C9").2 client9 (by decide) "bogus" none

/-! ## C10: frame property of token persistence -/

/-- C10: when the gateway's `GetUserToken` succeeds, the session record it
writes back differs from the previously stored record only in the
`accessToken` field (record update syntax preserves id, instance URL and
CSRF token); every other session is unchanged and the app registry is
untouched. -/
theorem getUserToken_frame (conf : SvcConf) (st : St)
    (post : TokenReq → Except GoErr String) (ctx : Ctx) (sid₀ : String)
    (c₀ : Option Client) (code token : String) (st' : St)
    (h : authService.GetUserToken conf st post ctx sid₀ c₀ code = (.ok token, st')) :
    ∃ sid old, ctx.sessionID = some sid ∧
      sessionsGet st.sessions sid = .ok old ∧
      st'.apps = st.apps ∧
      sessionsGet st'.sessions sid = .ok { old with accessToken := token } ∧
      ∀ j, j ≠ sid → sessionsGet st'.sessions j = sessionsGet st.sessions j := by
  unfold authService.GetUserToken at h
  split at h
  · exact absurd h (by simp)
  · rename_i c hc
    split at h
    · exact absurd h (by simp)
    · rename_i tok htok
      rw [Prod.mk.injEq] at h
      obtain ⟨hteq, hsteq⟩ := h
      have hteq' : tok = token := by simpa using hteq
      rw [hteq'] at hsteq
      obtain ⟨sid, app, hsid, hemp, hget, hid, happ, hconf⟩ := getClient_ok_spec hc
      refine ⟨sid, c.session, hsid, hget, ?_, ?_, ?_⟩
      · rw [← hsteq]
      · rw [← hsteq]
        have hid' : ({ c.session with accessToken := token } : Session).id = sid := hid
        rw [← hid']
        exact sessionsGet_add_self _ _
      · intro j hj
        rw [← hsteq]
        have hj' : j ≠ ({ c.session with accessToken := token } : Session).id := by
          intro hc'
          exact hj (hc'.trans hid)
        exact sessionsGet_add_other _ _ _ hj'

/-- C10 (witness): a concrete successful token exchange rewrites exactly
the resolved session. -/
theorem getUserToken_frame_witness :
    ∃ sid old, (⟨some "s9", none⟩ : Ctx).sessionID = some sid ∧
      sessionsGet st9.sessions sid = .ok old ∧
      (⟨[⟨"s9", "https://w", "TOK9", ""⟩], st9.apps⟩ : St).apps = st9.apps ∧
      sessionsGet (⟨[⟨"s9", "https://w", "TOK9", ""⟩], st9.apps⟩ : St).sessions sid =
        .ok { old with accessToken := "TOK9" } ∧
      ∀ j, j ≠ sid →
        sessionsGet (⟨[⟨"s9", "https://w", "TOK9", ""⟩], st9.apps⟩ : St).sessions j =
          sessionsGet st9.sessions j :=
  getUserToken_frame conf0 st9 (fun _ => .ok "TOK9") ⟨some "s9", none⟩ "" none
    "C9" "TOK9" ⟨[⟨"s9", "https://w", "TOK9", ""⟩], st9.apps⟩ (by decide)

/-! ## C5: empty authorization code -/

/-- C5 (counterexample): the claim says `GetUserToken` with an empty code
fails with `InvalidArgument` for every request context.  With a context
carrying no session, the gateway's `GetUserToken` fails with
`InvalidSession` instead: session resolution runs before the
empty-code check. -/
theorem getUserToken_emptyCode_counterexample :
    (authService.GetUserToken conf0 ⟨[], []⟩ (fun _ => .ok "T") ⟨none, none⟩
        "" none "").1 = .error .invalidSession ∧
      (Except.error GoErr.invalidSession : Except GoErr String)
        ≠ .error .invalidArgument := by
  decide

/-- C5 (amended): once the session resolves, the gateway's `GetUserToken`
with an empty code fails with `InvalidArgument`, leaves the state
untouched, and is independent of the token-exchange endpoint (no network
call); and the inner `service.GetUserToken` rejects an empty code with
`InvalidArgument` unconditionally, before any store or network access. -/
theorem getUserToken_emptyCode_guard (conf : SvcConf) (st : St)
    (post post' : TokenReq → Except GoErr String) (ctx : Ctx) (sid₀ : String)
    (c₀ : Option Client) :
    (∀ c, authService.getClient st ctx = .ok c →
      authService.GetUserToken conf st post ctx sid₀ c₀ "" =
        (.error .invalidArgument, st) ∧
      authService.GetUserToken conf st post ctx sid₀ c₀ "" =
        authService.GetUserToken conf st post' ctx sid₀ c₀ "")
    ∧ service.GetUserToken conf st post sid₀ c₀ "" = .error .invalidArgument := by
  have hinner : ∀ (p : TokenReq → Except GoErr String) (sid : String)
      (co : Option Client), service.GetUserToken conf st p sid co "" =
        .error .invalidArgument := by
    intro p sid co
    unfold service.GetUserToken
    rw [if_pos (by decide)]
  constructor
  · intro c hc
    constructor
    · simp [authService.GetUserToken, hc, hinner]
    · simp [authService.GetUserToken, hc, hinner]
  · exact hinner post sid₀ c₀

/-- C5 (witness): at a concrete resolvable state, the empty code yields
`InvalidArgument` and the exchange endpoint is irrelevant. -/
theorem getUserToken_emptyCode_guard_witness :
    authService.GetUserToken conf0 st9 (fun _ => .ok "T") ⟨some "s9", none⟩
        "x" none "" = (.error .invalidArgument, st9) ∧
      authService.GetUserToken conf0 st9 (fun _ => .ok "T") ⟨some "s9", none⟩
          "x" none "" =
        authService.GetUserToken conf0 st9 (fun _ => .error (.stubErr "down"))
          ⟨some "s9", none⟩ "x" none "" :=
  (getUserToken_emptyCode_guard conf0 st9 (fun _ => .ok "T")
    (fun _ => .error (.stubErr "down")) ⟨some "s9", none⟩ "x" none).1 client9
    (by decide)

/-! ## Helper lemmas about normalization and `GetAuthUrl` -/

theorem listHasSub_of_infix {needle hay : List Char} (h : needle <:+: hay) :
    listHasSub hay needle = true := by
  induction hay with
  | nil =>
    rcases h with ⟨s, t, hst⟩
    have hn : needle = [] := by
      have h1 := List.append_eq_nil.mp hst
      exact (List.append_eq_nil.mp h1.1).2
    simp [listHasSub, hn, List.isPrefixOf]
  | cons c rest ih =>
    unfold listHasSub
    split
    · rfl
    · rename_i hpre
      rcases h with ⟨s, t, hst⟩
      cases s with
      | nil =>
        exfalso
        apply hpre
        rw [List.isPrefixOf_iff_prefix]
        exact ⟨t, by simpa using hst⟩
      | cons x xs =>
        have hrest : needle <:+: rest :=
          ⟨xs, t, by simpa using congrArg List.tail hst⟩
        exact ih hrest

/-- A string with no `://` separator cannot start with `https://`. -/
theorem no_scheme_not_https (s : String) (h : hasScheme s = false) :
    goStartsWith s "https://" = false := by
  cases hb : goStartsWith s "https://" with
  | false => rfl
  | true =>
    exfalso
    have hp : "https://".data <+: s.data := by
      rw [← List.isPrefixOf_iff_prefix]
      exact hb
    have hinf : "://".data <:+: s.data :=
      List.IsInfix.trans ⟨"https".data, [], by decide⟩ hp.isInfix
    have hsub := listHasSub_of_infix hinf
    rw [hasScheme, hsub] at h
    cases h

theorem normalize_no_scheme (s : String) (h : hasScheme s = false) :
    normalizeInstance s = "https://" ++ s := by
  simp [normalizeInstance, no_scheme_not_https s h]

theorem normalize_https (s : String) :
    normalizeInstance ("https://" ++ s) = "https://" ++ s := by
  have hb : goStartsWith ("https://" ++ s) "https://" = true := by
    rw [goStartsWith, List.isPrefixOf_iff_prefix]
    exact ⟨s.data, by simp⟩
  simp [normalizeInstance, hb]

/-- Shape of `GetAuthUrl` when the instance is already registered: no
registration happens and the registry is left as it was. -/
theorem getAuthUrl_registered (conf : SvcConf) (st : St) (freshID : String)
    (reg : RegisterReq → Except GoErr MastoApp) (inst : String) (app : App)
    (h : appsGet st.apps (normalizeInstance inst) = .ok app) :
    service.GetAuthUrl conf st freshID reg inst =
      (match authorizeURL conf.clientWebsite (normalizeInstance inst) app.clientID with
       | .error e =>
         (.error e,
           { st with
             sessions := sessionsAdd st.sessions ⟨freshID, normalizeInstance inst, "", ""⟩ })
       | .ok u =>
         (.ok (u, freshID),
           { st with
             sessions := sessionsAdd st.sessions ⟨freshID, normalizeInstance inst, "", ""⟩ })) := by
  unfold service.GetAuthUrl
  dsimp only
  rw [h]

/-- Shape of `GetAuthUrl` when the registry misses: the session is stored
first, then registration runs and, on success, the new app is stored. -/
theorem getAuthUrl_unregistered (conf : SvcConf) (st : St) (freshID : String)
    (reg : RegisterReq → Except GoErr MastoApp) (inst : String)
    (h : appsGet st.apps (normalizeInstance inst) = .error .appNotFound) :
    service.GetAuthUrl conf st freshID reg inst =
      (match reg ⟨normalizeInstance inst, conf.clientName, conf.clientScope,
          conf.clientWebsite, conf.clientWebsite ++ "/oauth_callback"⟩ with
       | .error e =>
         (.error e,
           { st with
             sessions := sessionsAdd st.sessions ⟨freshID, normalizeInstance inst, "", ""⟩ })
       | .ok ma =>
         match authorizeURL conf.clientWebsite (normalizeInstance inst) ma.clientID with
         | .error e =>
           (.error e,
             { sessions := sessionsAdd st.sessions ⟨freshID, normalizeInstance inst, "", ""⟩,
               apps := appsAdd st.apps ⟨normalizeInstance inst, ma.clientID, ma.clientSecret⟩ })
         | .ok u =>
           (.ok (u, freshID),
             { sessions := sessionsAdd st.sessions ⟨freshID, normalizeInstance inst, "", ""⟩,
               apps := appsAdd st.apps ⟨normalizeInstance inst, ma.clientID, ma.clientSecret⟩ })) := by
  unfold service.GetAuthUrl
  dsimp only
  rw [h]
  simp only [ne_eq, not_true_eq_false, if_false]

/-- Whatever happens later, `GetAuthUrl` stores the fresh session (with
the normalized instance URL and empty tokens) in the Session Store. -/
theorem getAuthUrl_sessions (conf : SvcConf) (st : St) (freshID : String)
    (reg : RegisterReq → Except GoErr MastoApp) (inst : String) :
    (service.GetAuthUrl conf st freshID reg inst).2.sessions =
      sessionsAdd st.sessions ⟨freshID, normalizeInstance inst, "", ""⟩ := by
  unfold service.GetAuthUrl
  dsimp only
  repeat' split
  all_goals rfl

/-- Completing sign-in against a state holding the fresh session and a
registered app: the stub token is returned and persisted by overwrite. -/
theorem getUserToken_after_signin (conf : SvcConf) (st₁ : St)
    (post : TokenReq → Except GoErr String) (freshID code T : String)
    (csrf₀ : Option String) (n : String) (app' : App)
    (hsess : sessionsGet st₁.sessions freshID = .ok ⟨freshID, n, "", ""⟩)
    (happ : appsGet st₁.apps n = .ok app')
    (hpost : ∀ r, post r = .ok T) (hID : freshID ≠ "") (hcode : code ≠ "") :
    authService.GetUserToken conf st₁ post ⟨some freshID, csrf₀⟩ "" none code =
      (.ok T,
        { st₁ with sessions := sessionsAdd st₁.sessions ⟨freshID, n, T, ""⟩ }) := by
  have hlen : ¬ freshID.length < 1 := fun hl => hID ((strLen_lt_one_iff freshID).mp hl)
  have hclen : ¬ code.length < 1 := fun hl => hcode ((strLen_lt_one_iff code).mp hl)
  unfold authService.GetUserToken authService.getClient service.GetUserToken
  simp only [hsess, happ, hpost, if_neg hlen, if_neg hclen]

/-! ## C7: registration is looked up before it is attempted -/

/-- C7: if the instance's RegisteredApp already exists, `GetAuthUrl`
performs no remote registration — the registration endpoint is never
consulted (the run is identical for any two endpoints) — and the
registry is returned unchanged, so no second entry is added. -/
theorem getAuthUrl_idempotent_registration (conf : SvcConf) (st : St)
    (freshID : String) (reg reg' : RegisterReq → Except GoErr MastoApp)
    (inst : String) (app : App)
    (h : appsGet st.apps (normalizeInstance inst) = .ok app) :
    service.GetAuthUrl conf st freshID reg inst =
      service.GetAuthUrl conf st freshID reg' inst
    ∧ (service.GetAuthUrl conf st freshID reg inst).2.apps = st.apps := by
  constructor
  · rw [getAuthUrl_registered conf st freshID reg inst app h,
        getAuthUrl_registered conf st freshID reg' inst app h]
  · rw [getAuthUrl_registered conf st freshID reg inst app h]
    split
    all_goals rfl

/-- C7 (witness): with `reg.example` already registered, a run with a
working registration endpoint equals one with a failing endpoint, and
the registry is unchanged. -/
theorem getAuthUrl_idempotent_registration_witness :
    service.GetAuthUrl conf0 ⟨[], [⟨"https://reg.example", "CIDR", "SECR"⟩]⟩
        "sid7" (fun _ => .ok ⟨"X", "Y"⟩) "reg.example" =
      service.GetAuthUrl conf0 ⟨[], [⟨"https://reg.example", "CIDR", "SECR"⟩]⟩
        "sid7" (fun _ => .error (.stubErr "boom")) "reg.example"
    ∧ (service.GetAuthUrl conf0 ⟨[], [⟨"https://reg.example", "CIDR", "SECR"⟩]⟩
        "sid7" (fun _ => .ok ⟨"X", "Y"⟩) "reg.example").2.apps =
      (⟨[], [⟨"https://reg.example", "CIDR", "SECR"⟩]⟩ : St).apps :=
  getAuthUrl_idempotent_registration conf0
    ⟨[], [⟨"https://reg.example", "CIDR", "SECR"⟩]⟩ "sid7"
    (fun _ => .ok ⟨"X", "Y"⟩) (fun _ => .error (.stubErr "boom"))
    "reg.example" ⟨"https://reg.example", "CIDR", "SECR"⟩ (by decide)

/-! ## C8: no rollback of the session on registration failure -/

/-- C8: when the registry misses and registration against the remote
instance fails, `GetAuthUrl` returns the registration error unchanged
while the freshly stored Session (with empty access token) remains in
the Session Store — the final state contains it, with no rollback. -/
theorem getAuthUrl_orphan_session (conf : SvcConf) (st : St) (freshID : String)
    (e : GoErr) (reg : RegisterReq → Except GoErr MastoApp) (inst : String)
    (hmiss : appsGet st.apps (normalizeInstance inst) = .error .appNotFound)
    (hreg : ∀ r, reg r = .error e) :
    service.GetAuthUrl conf st freshID reg inst =
      (.error e,
        { st with
          sessions := sessionsAdd st.sessions ⟨freshID, normalizeInstance inst, "", ""⟩ })
    ∧ sessionsGet (service.GetAuthUrl conf st freshID reg inst).2.sessions freshID =
        .ok ⟨freshID, normalizeInstance inst, "", ""⟩ := by
  have h1 : service.GetAuthUrl conf st freshID reg inst =
      (.error e,
        { st with
          sessions := sessionsAdd st.sessions ⟨freshID, normalizeInstance inst, "", ""⟩ }) := by
    rw [getAuthUrl_unregistered conf st freshID reg inst hmiss, hreg]
  refine ⟨h1, ?_⟩
  rw [h1]
  exact sessionsGet_add_self _ _

/-- C8 (witness): a concrete failed registration returns the stub's error
and leaves the half-created session `sid8` in the store. -/
theorem getAuthUrl_orphan_session_witness :
    service.GetAuthUrl conf0 ⟨[], []⟩ "sid8"
        (fun _ => .error (.stubErr "register down")) "fail.example" =
      (.error (.stubErr "register down"),
        { (⟨[], []⟩ : St) with
          sessions := sessionsAdd (⟨[], []⟩ : St).sessions
            ⟨"sid8", normalizeInstance "fail.example", "", ""⟩ })
    ∧ sessionsGet (service.GetAuthUrl conf0 ⟨[], []⟩ "sid8"
          (fun _ => .error (.stubErr "register down")) "fail.example").2.sessions
        "sid8" = .ok ⟨"sid8", normalizeInstance "fail.example", "", ""⟩ :=
  getAuthUrl_orphan_session conf0 ⟨[], []⟩ "sid8" (.stubErr "register down")
    (fun _ => .error (.stubErr "register down")) "fail.example" (by decide)
    (fun r => rfl)

/-! ## C6: scheme normalization -/

/-- C6: a domain carrying no URL scheme is normalized by prefixing
`https://`, and every later interaction uses the normalized form: running
`GetAuthUrl` on the bare domain is the same run as on the prefixed
domain; the stored Session carries the normalized URL; a first-time
registration stores the RegisteredApp under the normalized key; and the
registration request itself addresses the normalized server (the run
only depends on the endpoint's answer at that one request, which also
fixes the authorization URL built from it). -/
theorem getAuthUrl_normalizes (conf : SvcConf) (st : St) (freshID : String)
    (reg : RegisterReq → Except GoErr MastoApp) (inst : String)
    (h : hasScheme inst = false) :
    normalizeInstance inst = "https://" ++ inst
    ∧ service.GetAuthUrl conf st freshID reg inst =
        service.GetAuthUrl conf st freshID reg ("https://" ++ inst)
    ∧ sessionsGet (service.GetAuthUrl conf st freshID reg inst).2.sessions freshID =
        .ok ⟨freshID, "https://" ++ inst, "", ""⟩
    ∧ (∀ cid sec, (∀ r, reg r = .ok ⟨cid, sec⟩) →
        appsGet st.apps ("https://" ++ inst) = .error .appNotFound →
        (service.GetAuthUrl conf st freshID reg inst).2.apps =
          appsAdd st.apps ⟨"https://" ++ inst, cid, sec⟩)
    ∧ (∀ reg', reg ⟨"https://" ++ inst, conf.clientName, conf.clientScope,
          conf.clientWebsite, conf.clientWebsite ++ "/oauth_callback"⟩ =
        reg' ⟨"https://" ++ inst, conf.clientName, conf.clientScope,
          conf.clientWebsite, conf.clientWebsite ++ "/oauth_callback"⟩ →
        service.GetAuthUrl conf st freshID reg inst =
          service.GetAuthUrl conf st freshID reg' inst) := by
  have hn := normalize_no_scheme inst h
  have hn2 := normalize_https inst
  refine ⟨hn, ?_, ?_, ?_, ?_⟩
  · unfold service.GetAuthUrl
    dsimp only
    rw [hn, hn2]
  · rw [getAuthUrl_sessions, hn]
    exact sessionsGet_add_self _ _
  · intro cid sec hreg hmiss
    have hmiss' : appsGet st.apps (normalizeInstance inst) = .error .appNotFound := by
      rw [hn]; exact hmiss
    rw [getAuthUrl_unregistered conf st freshID reg inst hmiss', hreg]
    dsimp only
    rw [← hn]
    split
    all_goals rfl
  · intro reg' hagree
    have hagree' : reg ⟨normalizeInstance inst, conf.clientName, conf.clientScope,
        conf.clientWebsite, conf.clientWebsite ++ "/oauth_callback"⟩ =
        reg' ⟨normalizeInstance inst, conf.clientName, conf.clientScope,
          conf.clientWebsite, conf.clientWebsite ++ "/oauth_callback"⟩ := by
      rw [hn]; exact hagree
    unfold service.GetAuthUrl
    dsimp only
    cases ha : appsGet st.apps (normalizeInstance inst) with
    | ok app => rfl
    | error e =>
      have he := appsGet_error ha
      subst he
      rw [hagree']

/-- C6 (witness): `sub.example.org` is normalized to
`https://sub.example.org` and the stored session carries that URL. -/
theorem getAuthUrl_normalizes_witness :
    normalizeInstance "sub.example.org" = "https://" ++ "sub.example.org"
    ∧ sessionsGet (service.GetAuthUrl conf0 ⟨[], []⟩ "sid6"
          (fun _ => .ok ⟨"CID6", "SEC6"⟩) "sub.example.org").2.sessions "sid6" =
        .ok ⟨"sid6", "https://" ++ "sub.example.org", "", ""⟩ :=
  have hth := getAuthUrl_normalizes conf0 ⟨[], []⟩ "sid6"
    (fun _ => .ok ⟨"CID6", "SEC6"⟩) "sub.example.org" (by decide)
  ⟨hth.1, hth.2.2.1⟩

/-! ## C4: the sign-in round trip -/

/-- C4: a successful `beginSignin` (`GetAuthUrl`) for an instance,
followed by `completeSignin` (the gateway's `GetUserToken`) with a
non-empty authorization code against a stub remote instance that answers
with token `T`, returns `T` and leaves the Session record overwritten
with `accessToken = T` in the Session Store. -/
theorem signin_roundtrip (conf : SvcConf) (st₀ st₁ : St)
    (inst freshID code T url sid : String)
    (reg : RegisterReq → Except GoErr MastoApp)
    (post : TokenReq → Except GoErr String) (csrf₀ : Option String)
    (h₁ : service.GetAuthUrl conf st₀ freshID reg inst = (.ok (url, sid), st₁))
    (hpost : ∀ r, post r = .ok T) (hID : freshID ≠ "") (hcode : code ≠ "") :
    sid = freshID ∧
    ∃ st₂,
      authService.GetUserToken conf st₁ post ⟨some freshID, csrf₀⟩ "" none code =
        (.ok T, st₂) ∧
      sessionsGet st₂.sessions freshID =
        .ok ⟨freshID, normalizeInstance inst, T, ""⟩ := by
  have key : sid = freshID ∧
      st₁.sessions = sessionsAdd st₀.sessions ⟨freshID, normalizeInstance inst, "", ""⟩ ∧
      ∃ app', appsGet st₁.apps (normalizeInstance inst) = .ok app' := by
    cases ha : appsGet st₀.apps (normalizeInstance inst) with
    | ok app =>
      rw [getAuthUrl_registered conf st₀ freshID reg inst app ha] at h₁
      split at h₁
      · exact absurd h₁ (by simp)
      · rw [Prod.mk.injEq] at h₁
        obtain ⟨hok, hst⟩ := h₁
        obtain ⟨hu, hsid⟩ : _ ∧ freshID = sid := by simpa using hok
        refine ⟨hsid.symm, ?_, app, ?_⟩
        · rw [← hst]
        · rw [← hst]
          exact ha
    | error e =>
      have he := appsGet_error ha
      subst he
      rw [getAuthUrl_unregistered conf st₀ freshID reg inst ha] at h₁
      split at h₁
      · exact absurd h₁ (by simp)
      · rename_i ma hma
        split at h₁
        · exact absurd h₁ (by simp)
        · rw [Prod.mk.injEq] at h₁
          obtain ⟨hok, hst⟩ := h₁
          obtain ⟨hu, hsid⟩ : _ ∧ freshID = sid := by simpa using hok
          refine ⟨hsid.symm, ?_,
            ⟨normalizeInstance inst, ma.clientID, ma.clientSecret⟩, ?_⟩
          · rw [← hst]
          · rw [← hst]
            exact appsGet_add_self st₀.apps
              ⟨normalizeInstance inst, ma.clientID, ma.clientSecret⟩
  obtain ⟨hsid, hsess_eq, app', happ'⟩ := key
  have hsess : sessionsGet st₁.sessions freshID =
      .ok ⟨freshID, normalizeInstance inst, "", ""⟩ := by
    rw [hsess_eq]
    exact sessionsGet_add_self _ _
  have hmain := getUserToken_after_signin conf st₁ post freshID code T csrf₀
    (normalizeInstance inst) app' hsess happ' hpost hID hcode
  exact ⟨hsid, _, hmain, sessionsGet_add_self _ _⟩

/-- C4 (witness): the concrete round trip for `example.com`, with a stub
registration endpoint and a stub token endpoint answering `TOK`. -/
theorem signin_roundtrip_witness :
    "sid1" = "sid1" ∧
    ∃ st₂,
      authService.GetUserToken conf0
          ⟨[⟨"sid1", "https://example.com", "", ""⟩],
           [⟨"https://example.com", "CID", "SEC"⟩]⟩
          (fun _ => .ok "TOK") ⟨some "sid1", none⟩ "" none "CODE" =
        (.ok "TOK", st₂) ∧
      sessionsGet st₂.sessions "sid1" =
        .ok ⟨"sid1", normalizeInstance "example.com", "TOK", ""⟩ :=
  signin_roundtrip conf0 ⟨[], []⟩
    ⟨[⟨"sid1", "https://example.com", "", ""⟩],
     [⟨"https://example.com", "CID", "SEC"⟩]⟩
    "example.com" "sid1" "CODE" "TOK"
    "https:///example.com/oauth/authorize?client_id=CID&redirect_uri=https%3A%2F%2Fbloat.example%2Foauth_callback&response_type=code&scope=read+write+follow"
    "sid1" (fun _ => .ok ⟨"CID", "SEC"⟩) (fun _ => .ok "TOK") none
    (by decide) (fun r => rfl) (by decide) (by decide)
